import Mathlib

/-!
Verification development for the einpartikkel eigenvalue / analysis modules.

The definitions below are a shallow embedding of the two source files
  einpartikkel/eigenvalues/eigenvalues_iter.py
  einpartikkel/analysis/analysis.py
Real (floating point) quantities are modelled as rationals, complex numbers
as pairs of rationals.  Python indexing that can raise IndexError, and the
HDF5 / filesystem accesses that can raise, are modelled with Option; a
`none` result models a raised exception.  External pyprop capabilities
(the overlap operator, the solver state, the filesystem) are passed in as
explicit parameters.
-/

set_option maxRecDepth 4000

/-- Complex number modelled as a pair (real part, imaginary part) of rationals. -/
abbrev Cplx := ℚ × ℚ

/-- Complex conjugate. -/
def cconj (z : Cplx) : Cplx := (z.1, -z.2)

/-- Complex multiplication. -/
def cmul (z w : Cplx) : Cplx := (z.1 * w.1 - z.2 * w.2, z.1 * w.2 + z.2 * w.1)

/-- Complex addition. -/
def cadd (z w : Cplx) : Cplx := (z.1 + w.1, z.2 + w.2)

/-- Squared magnitude of a complex number (models abs(z)**2). -/
def cnormSq (z : Cplx) : ℚ := z.1 * z.1 + z.2 * z.2

/-- Inner product dot(conj(v), w) of two complex vectors (numpy dot after conj). -/
def innerProd (v w : List Cplx) : Cplx :=
  (List.zipWith (fun a b => cmul (cconj a) b) v w).foldl cadd (0, 0)

/-- A wavefunction data array, indexed as [angular block, radial coordinate]
(models psi.GetData()). -/
abbrev WF := List (List Cplx)

/-- Python list/array indexing with negative-index wraparound; `none` models
IndexError. -/
def pyGet (xs : List ℚ) (i : Int) : Option ℚ :=
  if 0 ≤ i then xs[i.toNat]?
  else if 0 ≤ i + xs.length then xs[(i + (xs.length : Int)).toNat]? else none

/-- Forward difference of consecutive entries; models numpy.diff. -/
def npdiff (xs : List ℚ) : List ℚ :=
  List.zipWith (fun a b => b - a) xs xs.tail

/-- Interior spacing used by CalculateEnergyDistribution, line 159 of
analysis.py: (diff(curE[:-1]) + diff(curE[1:])) / 2 elementwise. -/
def interiorSpacingE (es : List ℚ) : List ℚ :=
  List.zipWith (fun a b => (a + b) / 2) (npdiff es.dropLast) (npdiff es.tail)

/-- Spacing array of CalculateEnergyDistribution, lines 159-163 of analysis.py:
[leftSpacing] + interiorSpacing + [rightSpacing] with
leftSpacing = (curE[1] - curE[0]) / 2 and rightSpacing = (curE[-1] - curE[-2]) / 2.
The Option models the IndexError raised by curE[1] / curE[-2] on short lists. -/
def spacingEnergy (es : List ℚ) : Option (List ℚ) := do
  let e1 ← pyGet es 1
  let e0 ← pyGet es 0
  let eLast ← pyGet es (-1)
  let ePen ← pyGet es (-2)
  pure ([(e1 - e0) / 2] ++ interiorSpacingE es ++ [(eLast - ePen) / 2])

/-- Density of states of CalculateEnergyDistribution, line 164 of analysis.py:
density = 1.0 / spacing, elementwise. -/
def densityEnergy (es : List ℚ) : Option (List ℚ) :=
  (spacingEnergy es).map (List.map (fun s => 1 / s))

/-- Spacing array of CalculateAngularDistribution, lines 264-267 of analysis.py:
interiorSpacing = diff(curE)[1:], leftSpacing = curE[1] - curE[0],
rightSpacing = curE[-1] - curE[-2] (no halving). -/
def spacingAngular (es : List ℚ) : Option (List ℚ) := do
  let e1 ← pyGet es 1
  let e0 ← pyGet es 0
  let eLast ← pyGet es (-1)
  let ePen ← pyGet es (-2)
  pure ([e1 - e0] ++ (npdiff es).tail ++ [eLast - ePen])

/-- Density of states of CalculateAngularDistribution, line 268 of analysis.py:
density = 1.0 / sqrt(spacing), elementwise. -/
noncomputable def densityAngular (es : List ℚ) : Option (List ℝ) :=
  (spacingAngular es).map (List.map (fun (s : ℚ) => (Real.sqrt (s : ℝ))⁻¹))

/-- Uniform energy grid E = r_[minE:maxE:dE] (numpy arange semantics):
ceil((maxE - minE) / dE) points, the i-th being minE + i * dE. -/
def energyGrid (minE maxE dE : ℚ) : List ℚ :=
  (List.range (⌈(maxE - minE) / dE⌉ : ℤ).toNat).map
    (fun (i : Nat) => minE + (i : ℚ) * dE)

/-- Linear interpolation on the segments of a sorted point list; helper for
`interp`.  Called only when the query point is at or beyond the first node. -/
def interpSeg : List (ℚ × ℚ) → ℚ → ℚ
  | [], _ => 0
  | [p], _ => p.2
  | p :: q :: rest, x =>
    if x ≤ q.1 then p.2 + (q.2 - p.2) * (x - p.1) / (q.1 - p.1)
    else interpSeg (q :: rest) x

/-- Linear interpolation, models scipy.interp(x, xp, fp, left=0, right=0)
at a single query point x, with the nodes given as (xp, fp) pairs:
0 to the left of the first node, 0 to the right of the last node, and
piecewise linear in between. -/
def interp (pts : List (ℚ × ℚ)) (x : ℚ) : ℚ :=
  match pts with
  | [] => 0
  | p :: _ =>
    if x < p.1 then 0
    else if (pts.getLastD p).1 < x then 0
    else interpSeg pts x

/-- One angular block as yielded by Eigenstate.IterateStates: the block index
angIdx into the wavefunction data, the discrete energies curE, and the
eigenvectors (the rows of curV.transpose(), i.e. one list entry per state). -/
structure StateBlock where
  angIdx : Nat
  curE : List ℚ
  vecs : List (List Cplx)
deriving DecidableEq

/-- Squared projections |dot(conj(curV.transpose()), psiSlice)|**2
(line 153 of analysis.py), one entry per eigenvector. -/
def projAbs2 (vecs : List (List Cplx)) (psiSlice : List Cplx) : List ℚ :=
  vecs.map (fun v => cnormSq (innerProd v psiSlice))

/-- One iteration of the angular-block loop of CalculateEnergyDistribution
(lines 149-167 of analysis.py): accumulates (totalIon, energyDistr).
`none` models a raised exception (bad block index or IndexError in the
density computation). -/
def energyDistStep (overlapPsi : WF) (E : List ℚ) (acc : ℚ × List ℚ)
    (blk : StateBlock) : Option (ℚ × List ℚ) := do
  let psiSlice ← overlapPsi[blk.angIdx]?
  let proj := projAbs2 blk.vecs psiSlice
  let density ← densityEnergy blk.curE
  let pts := blk.curE.zip (List.zipWith (fun a b => a * b) proj density)
  pure (acc.1 + proj.sum,
        List.zipWith (fun a b => a + b) acc.2 (E.map (interp pts)))

/-- The full angular-block loop of CalculateEnergyDistribution, starting from
totalIon = 0 and energyDistr = zeros(len(E)). -/
def energyDistLoop (overlapPsi : WF) (E : List ℚ) (blocks : List StateBlock) :
    Option (ℚ × List ℚ) :=
  blocks.foldlM (energyDistStep overlapPsi E) (0, List.replicate E.length 0)

/-- CalculateEnergyDistribution (lines 113-175 of analysis.py): multiplies the
overlap operator onto psi, builds the uniform grid, runs the block loop and
returns (E, energyDistr).  The internally computed diagnostic quantities
totalIon, totalIon2 and interpolateError are not part of the return value,
exactly as in the source (line 175 returns only E, energyDistr). -/
def CalculateEnergyDistribution (overlapOp : WF → WF) (blocks : List StateBlock)
    (psi : WF) (minE maxE dE : ℚ) : Option (List ℚ × List ℚ) :=
  let E := energyGrid minE maxE dE
  (energyDistLoop (overlapOp psi) E blocks).map (fun r => (E, r.2))

/-- The self-consistency diagnostic of CalculateEnergyDistribution
(lines 169-173 of analysis.py): interpolateError = totalIon - totalIon2 with
totalIon2 = sum(energyDistr) * dE.  In the source this value is computed and
then discarded (it is a dead local; only totalIon and totalIon2 are printed). -/
def interpolateError (overlapOp : WF → WF) (blocks : List StateBlock)
    (psi : WF) (minE maxE dE : ℚ) : Option ℚ :=
  let E := energyGrid minE maxE dE
  (energyDistLoop (overlapOp psi) E blocks).map (fun r => r.1 - r.2.sum * dE)

/-- Indices at which the estimate is negative; models
numpy where(estimates < 0)[0] (line 66 of eigenvalues_iter.py). -/
def npWhereNeg (estimates : List ℚ) : List Nat :=
  (List.range estimates.length).filter (fun i => decide (estimates.getD i 0 < 0))

/-- FindEigenvaluesInverseIterationsPiram, lines 64-73 of eigenvalues_iter.py,
restricted to its eigenvalue-selection postprocessing: the solver state is
abstracted as the parallel arrays ev = solver.Solver.GetEigenvalues() and
estimates = solver.Solver.GetConvergenceEstimates().  The source keeps
ev[where(estimates < 0)] and converts elementwise via 1.0 / x + shift. -/
def FindEigenvaluesInverseIterationsPiram (ev estimates : List ℚ) (shift : ℚ) :
    List ℚ :=
  ((npWhereNeg estimates).map (fun i => ev.getD i 0)).map (fun x => 1 / x + shift)

/-- Abstraction of the Piram solver state consumed by
SaveEigenpairsSolverShiftInvert: the accessor results used on lines 101-107
and 119-121 of eigenvalues_iter.py. -/
structure SolverState where
  eigenvalues : List ℚ
  convergenceEstimates : List ℚ
  errorEstimatesPIRAM : List ℚ
  errorEstimatesGMRES : List ℚ
  eigenvectors : List (List Cplx)
deriving DecidableEq

/-- Content of the persisted /Eig group written by
SaveEigenpairsSolverShiftInvert (lines 117-147 of eigenvalues_iter.py). -/
structure EigFileContent where
  Eigenvalues : List ℚ
  ErrorEstimateListGMRES : List ℚ
  ErrorEstimateListPIRAM : List ℚ
  ConvergenceEstimateEig : List ℚ
  eigenvectorDatasets : List (List Cplx)
deriving DecidableEq

/-- SaveEigenpairsSolverShiftInvert, lines 77-153 of eigenvalues_iter.py,
restricted to the data it persists: E = 1.0 / array(solver.GetEigenvalues())
+ shift (line 107, computed from all solver eigenvalues, with no filtering by
convergence estimate), one eigenvector dataset per i in range(len(E))
(lines 119-121), the three estimate arrays and the eigenvalue array
(lines 136-139). -/
def SaveEigenpairsSolverShiftInvert (s : SolverState) (shift : ℚ) :
    EigFileContent :=
  let E := s.eigenvalues.map (fun x => 1 / x + shift)
  { Eigenvalues := E
    ErrorEstimateListGMRES := s.errorEstimatesGMRES
    ErrorEstimateListPIRAM := s.errorEstimatesPIRAM
    ConvergenceEstimateEig := s.convergenceEstimates
    eigenvectorDatasets := (List.range E.length).map (fun i => s.eigenvectors.getD i []) }

/-- Configuration data consumed by NameGeneratorBoundstates: the
[Eigenvalues] folder_name option and the radial grid signature
"_".join(GetRadialPostfix(conf)) (GetRadialPostfix lives in the external
namegenerator module and is abstracted as a string field). -/
structure EigConfig where
  folder_name : String
  radialSignature : String
deriving DecidableEq

/-- NameGeneratorBoundstates, lines 191-217 of eigenvalues_iter.py:
folder + "/" + radial signature + "_l<l>_m<m>" + ".h5", where the l and m
values are stringified with spaces replaced by underscores
(os.path.normpath is external and modelled as the identity). -/
def NameGeneratorBoundstates (conf : EigConfig) (l m : Int) : String :=
  conf.folder_name ++ "/" ++ conf.radialSignature
    ++ "_l" ++ (toString l).replace " " "_"
    ++ "_m" ++ (toString m).replace " " "_" ++ ".h5"

/-- An eigenpair HDF5 file as read by LoadEigenpairs: the /Eig/Eigenvalues
array and the per-index eigenvector datasets (each a 2D array; the code
reads row 0 of dataset i). -/
structure EigenpairFile where
  Eigenvalues : List ℚ
  vectorDatasets : List (List (List Cplx))
deriving DecidableEq

/-- LoadEigenpairs, lines 157-187 of eigenvalues_iter.py.  The filesystem is
abstracted as a map from filename to file content (`none` = file absent).
Returns the emitted log lines and `some (E, V)` on success; a `none` second
component models a raised exception while reading datasets. -/
def LoadEigenpairs (fs : String → Option EigenpairFile) (conf : EigConfig)
    (l m : Int) : List String × Option (List ℚ × List (List Cplx)) :=
  let filename := NameGeneratorBoundstates conf l m
  match fs filename with
  | none =>
    (["Eigenstates file does not exist, skipping: " ++ filename], some ([], []))
  | some f =>
    let E := f.Eigenvalues
    let V := (List.range E.length).mapM (fun i => do
        let ds ← f.vectorDatasets[i]?
        ds[0]?)
    (["Now loading eigenvalues...", "Now loading eigenvectors..."],
     V.map (fun v => (E, v)))

/-- One Coulomb-wave file: a declared asymptotic charge Z plus the eigenpair
data of one energy window. -/
structure CoulombWaveFileData where
  Z : ℚ
  energies : List ℚ
  vecs : List (List Cplx)
deriving DecidableEq

/-- The Coulomb-wave catalog object built by FromMultipleFiles: the common
asymptotic charge and the loaded windows. -/
structure CoulombWavesCatalog where
  Z : ℚ
  files : List CoulombWaveFileData
deriving DecidableEq

/-- Modelled from the spec: coulombwaves.CoulombWaves.FromMultipleFiles is a
module of this repository that is not under src.  Per the spec (sections 3,
4.4 and 7) it loads precomputed scattering states from a set of files
spanning energy windows for one fixed asymptotic charge, validating that
charge consistency holds across all files at load time, with a fatal
mismatch otherwise. -/
def CoulombWavesFromMultipleFiles :
    List CoulombWaveFileData → Except String CoulombWavesCatalog
  | [] => Except.error "no Coulomb wave files given"
  | f :: rest =>
    if rest.all (fun g => decide (g.Z = f.Z)) then
      Except.ok ⟨f.Z, f :: rest⟩
    else
      Except.error "mismatched asymptotic charge Z across Coulomb wave files"

/-- Constructor state of CoulombwaveAnalysis (lines 318-323 of analysis.py):
the charge the analysis was constructed with and the file list. -/
structure CoulombwaveAnalysis where
  Z : ℚ
  FileList : List CoulombWaveFileData
deriving DecidableEq

/-- CoulombwaveAnalysis.Setup, lines 325-333 of analysis.py: builds the
catalog from the files, then asserts self.Eigenstate.Z == self.Z; an
assertion failure is modelled as Except.error. -/
def CoulombwaveAnalysis.Setup (a : CoulombwaveAnalysis) :
    Except String CoulombWavesCatalog := do
  let eigenstate ← CoulombWavesFromMultipleFiles a.FileList
  if eigenstate.Z = a.Z then
    pure eigenstate
  else
    Except.error "AssertionError: self.Eigenstate.Z == self.Z"

/-- MultiplyOverlap, lines 300-310 of analysis.py, over an explicit heap of
wavefunction arrays so that aliasing and in-place mutation are visible: a
wavefunction object is a heap index, inPsi.Copy() allocates a fresh cell
holding the same data, and GetRepresentation().MultiplyOverlap(outPsi)
mutates that fresh cell in place through the external overlap capability.
Returns the updated heap and the index of the new wavefunction. -/
def MultiplyOverlap (overlapOp : List Cplx → List Cplx) (heap : List (List Cplx))
    (inPsiRef : Nat) : Option (List (List Cplx) × Nat) := do
  let inData ← heap[inPsiRef]?
  let outRef := heap.length
  let heap1 := heap ++ [inData]
  let heap2 := heap1.set outRef (overlapOp inData)
  pure (heap2, outRef)


lemma set_append_singleton {α : Type} (l : List α) (a b : α) :
    (l ++ [a]).set l.length b = l ++ [b] := by
  induction l with
  | nil => rfl
  | cons x xs ih => simp [List.set, ih]

/-- C5: for every configuration and (l, m) key whose generated eigenpair file
does not exist, LoadEigenpairs logs a warning and returns two empty
sequences, and never raises in that case (the second component is `some`,
i.e. no exception). -/
theorem LoadEigenpairs_missing_file (fs : String → Option EigenpairFile)
    (conf : EigConfig) (l m : Int)
    (h : fs (NameGeneratorBoundstates conf l m) = none) :
    LoadEigenpairs fs conf l m =
      (["Eigenstates file does not exist, skipping: "
          ++ NameGeneratorBoundstates conf l m], some ([], [])) := by
  simp only [LoadEigenpairs, h]

theorem LoadEigenpairs_missing_file_witness :
    LoadEigenpairs (fun _ => none) ⟨"eig", "radial"⟩ 2 0 =
      (["Eigenstates file does not exist, skipping: "
          ++ NameGeneratorBoundstates ⟨"eig", "radial"⟩ 2 0], some ([], [])) :=
  LoadEigenpairs_missing_file (fun _ => none) ⟨"eig", "radial"⟩ 2 0 rfl

/-- C6: for every Coulomb-wave file list whose loaded asymptotic charge Z
differs from the charge the CoulombwaveAnalysis was constructed with, Setup
aborts with a precondition violation (the assert on line 333 of analysis.py)
instead of producing an analysis object over a mixed basis. -/
theorem CoulombwaveAnalysis_Setup_mismatch_aborts (a : CoulombwaveAnalysis)
    (cat : CoulombWavesCatalog)
    (hok : CoulombWavesFromMultipleFiles a.FileList = Except.ok cat)
    (hne : cat.Z ≠ a.Z) :
    CoulombwaveAnalysis.Setup a =
      Except.error "AssertionError: self.Eigenstate.Z == self.Z" := by
  unfold CoulombwaveAnalysis.Setup
  rw [hok]
  show (if cat.Z = a.Z then pure cat
        else Except.error "AssertionError: self.Eigenstate.Z == self.Z") = _
  rw [if_neg hne]

theorem CoulombwaveAnalysis_Setup_mismatch_aborts_witness :
    CoulombwaveAnalysis.Setup ⟨5, [⟨3, [], []⟩]⟩ =
      Except.error "AssertionError: self.Eigenstate.Z == self.Z" :=
  CoulombwaveAnalysis_Setup_mismatch_aborts ⟨5, [⟨3, [], []⟩]⟩
    ⟨3, [⟨3, [], []⟩]⟩ (by rfl) (by norm_num)

/-- C7: for every input wavefunction reference, MultiplyOverlap allocates and
returns a new wavefunction whose data is the overlap operator applied to the
input data, and the data of the input wavefunction (and of every other
pre-existing wavefunction on the heap) is unchanged by the call. -/
theorem MultiplyOverlap_frame (overlapOp : List Cplx → List Cplx)
    (heap : List (List Cplx)) (ref : Nat) (data : List Cplx)
    (h : heap[ref]? = some data) :
    MultiplyOverlap overlapOp heap ref =
      some (heap ++ [overlapOp data], heap.length)
    ∧ (heap ++ [overlapOp data])[heap.length]? = some (overlapOp data)
    ∧ ∀ r, r < heap.length → (heap ++ [overlapOp data])[r]? = heap[r]? := by
  refine ⟨?_, ?_, ?_⟩
  · unfold MultiplyOverlap
    rw [h]
    show some ((heap ++ [data]).set heap.length (overlapOp data), heap.length) = _
    rw [set_append_singleton]
  · rw [List.getElem?_append_right (le_refl heap.length)]
    simp
  · intro r hr
    rw [List.getElem?_append]
    rw [if_pos hr]

theorem MultiplyOverlap_frame_witness :
    MultiplyOverlap (fun _ => [((3 : ℚ), (4 : ℚ))]) [[((1 : ℚ), (2 : ℚ))]] 0 =
      some ([[((1 : ℚ), (2 : ℚ))], [((3 : ℚ), (4 : ℚ))]], 1) := by
  have h := MultiplyOverlap_frame (fun _ => [((3 : ℚ), (4 : ℚ))])
    [[((1 : ℚ), (2 : ℚ))]] 0 [((1 : ℚ), (2 : ℚ))] rfl
  exact h.1

/-- C2 counterexample: the self-consistency diagnostic interpolateError is not
exposed to the caller of CalculateEnergyDistribution: two inputs with
different diagnostic values produce identical return values, so no function
of the returned (E, energyDistr) pair recovers the mismatch. -/
theorem CalculateEnergyDistribution_return_underdetermines_diagnostic :
    CalculateEnergyDistribution id [⟨0, [10, 11], [[(1, 0)], [(1, 0)]]⟩]
        [[(1, 0)]] 0 1 1
      = CalculateEnergyDistribution id [⟨0, [10, 11], [[(1, 0)], [(1, 0)]]⟩]
        [[(0, 0)]] 0 1 1
    ∧ interpolateError id [⟨0, [10, 11], [[(1, 0)], [(1, 0)]]⟩]
        [[(1, 0)]] 0 1 1
      ≠ interpolateError id [⟨0, [10, 11], [[(1, 0)], [(1, 0)]]⟩]
        [[(0, 0)]] 0 1 1 := by
  have h1 : CalculateEnergyDistribution id [⟨0, [10, 11], [[(1, 0)], [(1, 0)]]⟩]
      [[(1, 0)]] 0 1 1 = some ([0], [0]) := by
    norm_num [CalculateEnergyDistribution, energyDistLoop, energyDistStep,
      energyGrid, Int.ceil_one, List.range_succ, projAbs2, innerProd, cconj,
      cmul, cadd, cnormSq, densityEnergy, spacingEnergy, interiorSpacingE,
      npdiff, pyGet, interp, interpSeg]
  have h2 : CalculateEnergyDistribution id [⟨0, [10, 11], [[(1, 0)], [(1, 0)]]⟩]
      [[(0, 0)]] 0 1 1 = some ([0], [0]) := by
    norm_num [CalculateEnergyDistribution, energyDistLoop, energyDistStep,
      energyGrid, Int.ceil_one, List.range_succ, projAbs2, innerProd, cconj,
      cmul, cadd, cnormSq, densityEnergy, spacingEnergy, interiorSpacingE,
      npdiff, pyGet, interp, interpSeg]
  have h3 : interpolateError id [⟨0, [10, 11], [[(1, 0)], [(1, 0)]]⟩]
      [[(1, 0)]] 0 1 1 = some 2 := by
    norm_num [interpolateError, energyDistLoop, energyDistStep,
      energyGrid, Int.ceil_one, List.range_succ, projAbs2, innerProd, cconj,
      cmul, cadd, cnormSq, densityEnergy, spacingEnergy, interiorSpacingE,
      npdiff, pyGet, interp, interpSeg]
  have h4 : interpolateError id [⟨0, [10, 11], [[(1, 0)], [(1, 0)]]⟩]
      [[(0, 0)]] 0 1 1 = some 0 := by
    norm_num [interpolateError, energyDistLoop, energyDistStep,
      energyGrid, Int.ceil_one, List.range_succ, projAbs2, innerProd, cconj,
      cmul, cadd, cnormSq, densityEnergy, spacingEnergy, interiorSpacingE,
      npdiff, pyGet, interp, interpSeg]
  refine ⟨h1.trans h2.symm, ?_⟩
  rw [h3, h4]
  norm_num

/-- C2 amended: CalculateEnergyDistribution computes the self-consistency
diagnostic interpolateError = totalIon - sum(energyDistr) * dE, but returns
only the energy grid and the distribution; the diagnostic is discarded
rather than exposed to the caller (only the two raw totals are printed). -/
theorem CalculateEnergyDistribution_discards_diagnostic
    (overlapOp : WF → WF) (blocks : List StateBlock) (psi : WF)
    (minE maxE dE : ℚ) (r : ℚ × List ℚ)
    (h : energyDistLoop (overlapOp psi) (energyGrid minE maxE dE) blocks
          = some r) :
    CalculateEnergyDistribution overlapOp blocks psi minE maxE dE
      = some (energyGrid minE maxE dE, r.2)
    ∧ interpolateError overlapOp blocks psi minE maxE dE
      = some (r.1 - r.2.sum * dE) := by
  simp only [CalculateEnergyDistribution, interpolateError]
  rw [h]
  exact ⟨rfl, rfl⟩

theorem CalculateEnergyDistribution_discards_diagnostic_witness :
    CalculateEnergyDistribution id [] [] 0 1 1 = some ([0], [0])
    ∧ interpolateError id [] [] 0 1 1 = some 0 := by
  have h := CalculateEnergyDistribution_discards_diagnostic id [] [] 0 1 1
    (0, [0])
    (by norm_num [energyDistLoop, energyGrid, Int.ceil_one, List.range_succ])
  refine ⟨h.1.trans ?_, h.2.trans ?_⟩
  · norm_num [energyGrid, Int.ceil_one, List.range_succ]
  · norm_num

lemma npWhereNeg_map_getD (est : List ℚ) : ∀ (ev : List ℚ),
    ev.length = est.length →
    (npWhereNeg est).map (fun i => ev.getD i 0)
      = ((ev.zip est).filter (fun p => decide (p.2 < 0))).map Prod.fst := by
  induction est with
  | nil =>
    intro ev h
    rw [List.length_eq_zero.mp h]
    rfl
  | cons e est' ih =>
    intro ev h
    cases ev with
    | nil => simp at h
    | cons a ev' =>
      have h' : ev'.length = est'.length := by simpa using h
      have ihh := ih ev' h'
      simp only [npWhereNeg] at ihh
      have hpred : ((fun i => decide ((e :: est').getD i 0 < 0)) ∘ Nat.succ)
          = (fun i => decide (est'.getD i 0 < 0)) := by
        funext i
        simp [List.getD_cons_succ]
      have hmap : ((fun i => (a :: ev').getD i 0) ∘ Nat.succ)
          = (fun i => ev'.getD i 0) := by
        funext i
        simp [List.getD_cons_succ]
      simp only [npWhereNeg, List.length_cons, List.range_succ_eq_map,
        List.filter_cons, List.getD_cons_zero, List.filter_map, hpred,
        List.zip_cons_cons]
      by_cases he : e < 0
      · rw [decide_eq_true he]
        simp only [if_true, List.map_cons, List.getD_cons_zero, List.map_map,
          hmap, ihh]
      · rw [decide_eq_false he]
        simp only [Bool.false_eq_true, if_false, List.map_map, hmap, ihh]

/-- C1: FindEigenvaluesInverseIterationsPiram returns exactly the eigenvalues
at indices with a negative convergence estimate, each converted via
1 / lambda + shift; every returned value arises from a pair with a negative
estimate, so no eigenvalue with a non-negative estimate appears. -/
theorem FindEigenvalues_converged_only (ev est : List ℚ) (shift : ℚ)
    (h : ev.length = est.length) :
    FindEigenvaluesInverseIterationsPiram ev est shift
      = ((ev.zip est).filter (fun p => decide (p.2 < 0))).map
          (fun p => 1 / p.1 + shift)
    ∧ ∀ x ∈ FindEigenvaluesInverseIterationsPiram ev est shift,
        ∃ p ∈ ev.zip est, p.2 < 0 ∧ x = 1 / p.1 + shift := by
  have key := npWhereNeg_map_getD est ev h
  have main : FindEigenvaluesInverseIterationsPiram ev est shift
      = ((ev.zip est).filter (fun p => decide (p.2 < 0))).map
          (fun p => 1 / p.1 + shift) := by
    unfold FindEigenvaluesInverseIterationsPiram
    rw [key, List.map_map]
    rfl
  refine ⟨main, ?_⟩
  intro x hx
  rw [main] at hx
  obtain ⟨p, hp, hxp⟩ := List.mem_map.mp hx
  have hf := List.mem_filter.mp hp
  exact ⟨p, hf.1, of_decide_eq_true hf.2, hxp.symm⟩

theorem FindEigenvalues_converged_only_witness :
    FindEigenvaluesInverseIterationsPiram [2, 4] [-1, 1] 0 = [1 / 2] := by
  have h := (FindEigenvalues_converged_only [2, 4] [-1, 1] 0 rfl).1
  refine h.trans ?_
  norm_num [List.filter]

/-- C9: the eigenvalue array persisted by SaveEigenpairsSolverShiftInvert is
1 / lambda + shift for every eigenvalue the solver holds, with no filtering
by the sign of the convergence estimate; every converged eigenvalue reported
by FindEigenvaluesInverseIterationsPiram is persisted, and for the concrete
solver state with eigenvalue 2 and (non-negative) estimate 1 the persisted
array contains 1/2 although the converged report is empty. -/
theorem SaveEigenpairs_unfiltered :
    (∀ (s : SolverState) (shift : ℚ),
        (SaveEigenpairsSolverShiftInvert s shift).Eigenvalues
          = s.eigenvalues.map (fun x => 1 / x + shift))
    ∧ (∀ (s : SolverState) (shift : ℚ) (x : ℚ),
        s.convergenceEstimates.length ≤ s.eigenvalues.length →
        x ∈ FindEigenvaluesInverseIterationsPiram s.eigenvalues
              s.convergenceEstimates shift →
        x ∈ (SaveEigenpairsSolverShiftInvert s shift).Eigenvalues)
    ∧ FindEigenvaluesInverseIterationsPiram [2] [1] 0 = []
    ∧ (SaveEigenpairsSolverShiftInvert ⟨[2], [1], [], [], []⟩ 0).Eigenvalues
        = [1 / 2] := by
  refine ⟨fun s shift => rfl, ?_, ?_, ?_⟩
  · intro s shift x hlen hx
    unfold FindEigenvaluesInverseIterationsPiram at hx
    obtain ⟨y, hy, hxy⟩ := List.mem_map.mp hx
    obtain ⟨i, hi, hiy⟩ := List.mem_map.mp hy
    simp only [npWhereNeg] at hi
    have hmem := List.mem_filter.mp hi
    have hilt : i < s.convergenceEstimates.length := List.mem_range.mp hmem.1
    have hiev : i < s.eigenvalues.length := lt_of_lt_of_le hilt hlen
    have hgd : s.eigenvalues.getD i 0 ∈ s.eigenvalues := by
      rw [List.getD_eq_getElem?_getD, List.getElem?_eq_getElem hiev]
      exact List.getElem_mem hiev
    have hsaved : (SaveEigenpairsSolverShiftInvert s shift).Eigenvalues
        = s.eigenvalues.map (fun v => 1 / v + shift) := rfl
    rw [hsaved]
    refine List.mem_map.mpr ⟨s.eigenvalues.getD i 0, hgd, ?_⟩
    rw [hiy, hxy]
  · norm_num [FindEigenvaluesInverseIterationsPiram, npWhereNeg,
      List.range_succ, List.filter]
  · norm_num [SaveEigenpairsSolverShiftInvert]

theorem SaveEigenpairs_unfiltered_witness :
    ((1 : ℚ) / 2 + 0)
      ∈ (SaveEigenpairsSolverShiftInvert ⟨[2], [-1], [], [], []⟩ 0).Eigenvalues := by
  refine SaveEigenpairs_unfiltered.2.1 ⟨[2], [-1], [], [], []⟩ 0 (1 / 2 + 0)
    (by norm_num) ?_
  norm_num [FindEigenvaluesInverseIterationsPiram, npWhereNeg,
    List.range_succ, List.filter]

lemma getElem?_eq_getD (xs : List ℚ) (i : Nat) (h : i < xs.length) :
    xs[i]? = some (xs.getD i 0) := by
  rw [List.getD_eq_getElem?_getD, List.getElem?_eq_getElem h]
  rfl

lemma pyGet_one (es : List ℚ) (h : 2 ≤ es.length) :
    pyGet es 1 = some (es.getD 1 0) := by
  unfold pyGet
  rw [if_pos (by norm_num)]
  exact getElem?_eq_getD es 1 (by omega)

lemma pyGet_zero (es : List ℚ) (h : 1 ≤ es.length) :
    pyGet es 0 = some (es.getD 0 0) := by
  unfold pyGet
  rw [if_pos (le_refl 0)]
  exact getElem?_eq_getD es 0 (by omega)

lemma pyGet_neg_one (es : List ℚ) (h : 1 ≤ es.length) :
    pyGet es (-1) = some (es.getD (es.length - 1) 0) := by
  unfold pyGet
  rw [if_neg (by norm_num), if_pos (by omega)]
  have hidx : ((-1) + (es.length : Int)).toNat = es.length - 1 := by omega
  rw [hidx]
  exact getElem?_eq_getD es (es.length - 1) (by omega)

lemma pyGet_neg_two (es : List ℚ) (h : 2 ≤ es.length) :
    pyGet es (-2) = some (es.getD (es.length - 2) 0) := by
  unfold pyGet
  rw [if_neg (by norm_num), if_pos (by omega)]
  have hidx : ((-2) + (es.length : Int)).toNat = es.length - 2 := by omega
  rw [hidx]
  exact getElem?_eq_getD es (es.length - 2) (by omega)

lemma npdiff_length (xs : List ℚ) : (npdiff xs).length = xs.length - 1 := by
  simp only [npdiff, List.length_zipWith, List.length_tail]
  omega

lemma npdiff_getElem? (xs : List ℚ) (i : Nat) (h : i + 1 < xs.length) :
    (npdiff xs)[i]? = some (xs.getD (i + 1) 0 - xs.getD i 0) := by
  unfold npdiff
  rw [List.getElem?_zipWith, getElem?_eq_getD xs i (by omega), List.getElem?_tail,
    getElem?_eq_getD xs (i + 1) h]

lemma dropLast_getD (es : List ℚ) (k : Nat) (h : k + 1 < es.length) :
    es.dropLast.getD k 0 = es.getD k 0 := by
  rw [List.getD_eq_getElem?_getD, List.getD_eq_getElem?_getD,
    List.dropLast_eq_take, List.getElem?_take, if_pos (by omega)]

lemma tail_getD (es : List ℚ) (k : Nat) :
    es.tail.getD k 0 = es.getD (k + 1) 0 := by
  rw [List.getD_eq_getElem?_getD, List.getD_eq_getElem?_getD, List.getElem?_tail]

lemma interiorSpacingE_length (es : List ℚ) :
    (interiorSpacingE es).length = es.length - 2 := by
  simp only [interiorSpacingE, List.length_zipWith, npdiff_length,
    List.length_dropLast, List.length_tail]
  omega

lemma interiorSpacingE_getElem? (es : List ℚ) (j : Nat) (h : j + 2 < es.length) :
    (interiorSpacingE es)[j]?
      = some (((es.getD (j + 1) 0 - es.getD j 0)
               + (es.getD (j + 2) 0 - es.getD (j + 1) 0)) / 2) := by
  unfold interiorSpacingE
  rw [List.getElem?_zipWith]
  rw [npdiff_getElem? es.dropLast j
    (by rw [List.length_dropLast]; omega)]
  rw [npdiff_getElem? es.tail j (by rw [List.length_tail]; omega)]
  rw [dropLast_getD es (j + 1) (by omega), dropLast_getD es j (by omega),
    tail_getD, tail_getD]

lemma spacingEnergy_eq (es : List ℚ) (h : 2 ≤ es.length) :
    spacingEnergy es
      = some ((es.getD 1 0 - es.getD 0 0) / 2
          :: (interiorSpacingE es
              ++ [(es.getD (es.length - 1) 0 - es.getD (es.length - 2) 0) / 2])) := by
  unfold spacingEnergy
  rw [pyGet_one es h, pyGet_zero es (by omega), pyGet_neg_one es (by omega),
    pyGet_neg_two es h]
  rfl

/-- C4: in CalculateEnergyDistribution, for every block with at least two
discrete energies, the local density of states is the reciprocal of the
local spacing: half the adjacent edge spacing at the first and last point,
and the average of the spacings to the two neighbours at interior points. -/
theorem densityEnergy_characterization (es : List ℚ) (h : 2 ≤ es.length) :
    ∃ d, densityEnergy es = some d
      ∧ d.length = es.length
      ∧ d[0]? = some (1 / ((es.getD 1 0 - es.getD 0 0) / 2))
      ∧ d[es.length - 1]?
          = some (1 / ((es.getD (es.length - 1) 0
                        - es.getD (es.length - 2) 0) / 2))
      ∧ ∀ i, 0 < i → i + 1 < es.length →
          d[i]? = some (1 / (((es.getD i 0 - es.getD (i - 1) 0)
                              + (es.getD (i + 1) 0 - es.getD i 0)) / 2)) := by
  obtain ⟨k, hk⟩ : ∃ k, es.length = k + 2 := ⟨es.length - 2, by omega⟩
  have hsp := spacingEnergy_eq es h
  have hmidlen : (interiorSpacingE es).length = k := by
    rw [interiorSpacingE_length, hk]
    omega
  refine ⟨((es.getD 1 0 - es.getD 0 0) / 2
      :: (interiorSpacingE es
          ++ [(es.getD (es.length - 1) 0 - es.getD (es.length - 2) 0) / 2])).map
        (fun s => 1 / s), ?_, ?_, ?_, ?_, ?_⟩
  · unfold densityEnergy
    rw [hsp]
    rfl
  · simp only [List.length_map, List.length_cons, List.length_append,
      hmidlen, hk, List.length_cons, List.length_nil]
  · rw [List.getElem?_map, List.getElem?_cons_zero]
    rfl
  · rw [List.getElem?_map, hk]
    have hstep : k + 2 - 1 = k + 1 := by omega
    rw [hstep, List.getElem?_cons_succ,
      List.getElem?_append_right (by rw [hmidlen])]
    rw [hmidlen, Nat.sub_self, List.getElem?_cons_zero]
    rfl
  · intro i hi0 hilt
    obtain ⟨j, rfl⟩ : ∃ j, i = j + 1 := ⟨i - 1, by omega⟩
    rw [List.getElem?_map, List.getElem?_cons_succ, List.getElem?_append,
      if_pos (by rw [hmidlen]; omega)]
    rw [interiorSpacingE_getElem? es j (by omega)]
    simp only [Nat.add_sub_cancel]
    rfl

theorem densityEnergy_characterization_witness :
    ∃ d, densityEnergy [(0 : ℚ), 1, 3] = some d ∧ d[0]? = some 2 := by
  obtain ⟨d, hd, hlen, h0, hlast, hint⟩ :=
    densityEnergy_characterization [0, 1, 3] (by norm_num)
  refine ⟨d, hd, ?_⟩
  rw [h0]
  norm_num

lemma npdiff_tail_length (es : List ℚ) :
    (npdiff es).tail.length = es.length - 2 := by
  rw [List.length_tail, npdiff_length]
  omega

lemma npdiff_tail_getElem? (es : List ℚ) (j : Nat) (h : j + 2 < es.length) :
    (npdiff es).tail[j]? = some (es.getD (j + 2) 0 - es.getD (j + 1) 0) := by
  rw [List.getElem?_tail, npdiff_getElem? es (j + 1) (by omega)]

lemma spacingAngular_eq (es : List ℚ) (h : 2 ≤ es.length) :
    spacingAngular es
      = some ((es.getD 1 0 - es.getD 0 0)
          :: ((npdiff es).tail
              ++ [es.getD (es.length - 1) 0 - es.getD (es.length - 2) 0])) := by
  unfold spacingAngular
  rw [pyGet_one es h, pyGet_zero es (by omega), pyGet_neg_one es (by omega),
    pyGet_neg_two es h]
  rfl

/-- C3 amended: the density-of-states weighting of
CalculateAngularDistribution is not the same function as that of
CalculateEnergyDistribution; it is the reciprocal square root of a spacing
array built from the full (unhalved) edge spacings and, at interior point i,
the forward difference curE[i+1] - curE[i] (diff(curE)[1:]), rather than the
reciprocal of the halved-edge / symmetric-interior spacing. -/
theorem spacingAngular_characterization (es : List ℚ) (h : 2 ≤ es.length) :
    ∃ sp, spacingAngular es = some sp
      ∧ densityAngular es
          = some (sp.map (fun s : ℚ => (Real.sqrt (s : ℝ))⁻¹))
      ∧ sp.length = es.length
      ∧ sp[0]? = some (es.getD 1 0 - es.getD 0 0)
      ∧ sp[es.length - 1]?
          = some (es.getD (es.length - 1) 0 - es.getD (es.length - 2) 0)
      ∧ ∀ i, 0 < i → i + 1 < es.length →
          sp[i]? = some (es.getD (i + 1) 0 - es.getD i 0) := by
  obtain ⟨k, hk⟩ : ∃ k, es.length = k + 2 := ⟨es.length - 2, by omega⟩
  have hsp := spacingAngular_eq es h
  have hmidlen : (npdiff es).tail.length = k := by
    rw [npdiff_tail_length, hk]
    omega
  refine ⟨(es.getD 1 0 - es.getD 0 0)
      :: ((npdiff es).tail
          ++ [es.getD (es.length - 1) 0 - es.getD (es.length - 2) 0]),
    hsp, ?_, ?_, ?_, ?_, ?_⟩
  · unfold densityAngular
    rw [hsp]
    rfl
  · simp only [List.length_cons, List.length_append, hmidlen, hk,
      List.length_cons, List.length_nil]
  · rw [List.getElem?_cons_zero]
  · rw [hk]
    have hstep : k + 2 - 1 = k + 1 := by omega
    rw [hstep, List.getElem?_cons_succ,
      List.getElem?_append_right (by rw [hmidlen])]
    rw [hmidlen, Nat.sub_self, List.getElem?_cons_zero]
  · intro i hi0 hilt
    obtain ⟨j, rfl⟩ : ∃ j, i = j + 1 := ⟨i - 1, by omega⟩
    rw [List.getElem?_cons_succ, List.getElem?_append,
      if_pos (by rw [hmidlen]; omega)]
    rw [npdiff_tail_getElem? es j (by omega)]

theorem spacingAngular_characterization_witness :
    ∃ sp, spacingAngular [(0 : ℚ), 1, 3] = some sp ∧ sp[0]? = some 1 := by
  obtain ⟨sp, hsp, hdens, hlen, h0, hlast, hint⟩ :=
    spacingAngular_characterization [0, 1, 3] (by norm_num)
  refine ⟨sp, hsp, ?_⟩
  rw [h0]
  norm_num

/-- C3 counterexample: on the energy list [0, 1, 3] the density-of-states
weighting of CalculateAngularDistribution differs from that of
CalculateEnergyDistribution (1 versus 2 already at the first point). -/
theorem densityAngular_ne_densityEnergy :
    densityAngular [0, 1, 3]
      ≠ (densityEnergy [0, 1, 3]).map (List.map (fun q : ℚ => (q : ℝ))) := by
  have hA : densityAngular [0, 1, 3]
      = some [(Real.sqrt 1)⁻¹, (Real.sqrt 2)⁻¹, (Real.sqrt 2)⁻¹] := by
    unfold densityAngular
    rw [spacingAngular_eq [0, 1, 3] (by norm_num)]
    norm_num [npdiff]
  have hE : (densityEnergy [0, 1, 3]).map (List.map (fun q : ℚ => (q : ℝ)))
      = some [2, (2 : ℝ) / 3, 1] := by
    unfold densityEnergy
    rw [spacingEnergy_eq [0, 1, 3] (by norm_num)]
    norm_num [interiorSpacingE, npdiff]
  rw [hA, hE]
  simp only [Ne, Option.some.injEq, List.cons.injEq, not_and]
  intro h1
  rw [Real.sqrt_one, inv_one] at h1
  norm_num at h1

/-- C10: the density-of-states computations of both distribution routines
index the second and second-to-last entries of the discrete energy list;
with at least two eigenvalues per block all accesses are in bounds, and for
a block with fewer than two eigenvalues the computation fails (IndexError,
modelled as none) rather than returning a result. -/
theorem density_index_safety :
    (∀ es : List ℚ, 2 ≤ es.length →
        (densityEnergy es).isSome ∧ (spacingAngular es).isSome)
    ∧ densityEnergy [3] = none ∧ spacingAngular [3] = none
    ∧ densityEnergy [] = none ∧ spacingAngular [] = none := by
  refine ⟨?_, ?_, ?_, ?_, ?_⟩
  · intro es h
    constructor
    · unfold densityEnergy
      rw [spacingEnergy_eq es h]
      rfl
    · rw [spacingAngular_eq es h]
      rfl
  · rfl
  · rfl
  · rfl
  · rfl

theorem density_index_safety_witness :
    (densityEnergy [(0 : ℚ), 1]).isSome ∧ (spacingAngular [(0 : ℚ), 1]).isSome :=
  density_index_safety.1 [0, 1] (by norm_num)

/-- C8: for minE < maxE and dE > 0 the energy grid has exactly
ceil((maxE - minE) / dE) points, the i-th being minE + i * dE (spacing dE
starting at minE), and the interpolated block contribution is zero at grid
energies strictly below the first discrete energy node and strictly above
the last one (no extrapolation outside the discrete range). -/
theorem energyGrid_interp_spec (minE maxE dE : ℚ) (h1 : minE < maxE)
    (h2 : 0 < dE) :
    ((energyGrid minE maxE dE).length : ℤ) = ⌈(maxE - minE) / dE⌉
    ∧ (∀ i, i < (energyGrid minE maxE dE).length →
        (energyGrid minE maxE dE)[i]? = some (minE + (i : ℚ) * dE))
    ∧ (∀ (pts : List (ℚ × ℚ)) (p0 : ℚ × ℚ) (x : ℚ), pts.head? = some p0 →
        x < p0.1 → interp pts x = 0)
    ∧ (∀ (pts : List (ℚ × ℚ)) (pn : ℚ × ℚ) (x : ℚ), pts.getLast? = some pn →
        pn.1 < x → interp pts x = 0) := by
  refine ⟨?_, ?_, ?_, ?_⟩
  · have hpos : (0 : ℚ) < (maxE - minE) / dE := div_pos (by linarith) h2
    have hceil : 0 ≤ ⌈(maxE - minE) / dE⌉ := (Int.ceil_pos.mpr hpos).le
    unfold energyGrid
    rw [List.length_map, List.length_range]
    exact Int.toNat_of_nonneg hceil
  · intro i hi
    unfold energyGrid at hi ⊢
    rw [List.length_map, List.length_range] at hi
    rw [List.getElem?_map, List.getElem?_range hi]
    rfl
  · intro pts p0 x hhead hx
    cases pts with
    | nil => simp at hhead
    | cons p rest =>
      have hp : p = p0 := by simpa using hhead
      subst hp
      show (if x < p.1 then 0
            else if ((p :: rest).getLastD p).1 < x then 0
            else interpSeg (p :: rest) x) = 0
      rw [if_pos hx]
  · intro pts pn x hlast hx
    cases pts with
    | nil => simp at hlast
    | cons p rest =>
      have hgl : (p :: rest).getLastD p = pn := by
        rw [List.getLastD_eq_getLast?, hlast]
        rfl
      show (if x < p.1 then 0
            else if ((p :: rest).getLastD p).1 < x then 0
            else interpSeg (p :: rest) x) = 0
      by_cases hxp : x < p.1
      · rw [if_pos hxp]
      · rw [if_neg hxp, hgl, if_pos hx]

theorem energyGrid_interp_spec_witness :
    ((energyGrid 0 1 1).length : ℤ) = 1
    ∧ (energyGrid 0 1 1)[0]? = some 0
    ∧ interp [((5 : ℚ), (7 : ℚ))] 4 = 0
    ∧ interp [((5 : ℚ), (7 : ℚ))] 6 = 0 := by
  have h := energyGrid_interp_spec 0 1 1 (by norm_num) (by norm_num)
  refine ⟨?_, ?_, ?_, ?_⟩
  · rw [h.1]
    norm_num [Int.ceil_one]
  · have h0 := h.2.1 0 (by
      norm_num [energyGrid, Int.ceil_one, List.length_map, List.length_range])
    rw [h0]
    norm_num
  · exact h.2.2.1 [(5, 7)] (5, 7) 4 rfl (by norm_num)
  · exact h.2.2.2 [(5, 7)] (5, 7) 6 rfl (by norm_num)
